import Mathlib

/-!
Verification of the karox virtual-memory mapping engine.

This development shallowly embeds the page-table code of the repository:

* `src/os/src/arch/riscv/mm/paging.rs` — `PageTableFlags`, `PageTableEntry`,
  `RawPageDir`, `PageDir` (the RISC-V `PageDirTrait` implementation with
  `LEVEL_WIDTH = 9`, `PPN_ALIGNED = true`);
* `src/os/src/mm/paging.rs` — `calc_index`, `is_mapped_internal`,
  `map_pages_internal`, `clear_pages_on_failure`, `expand_pages`,
  `clear_pages_internal`, and the `PageTable` API `map`/`clear`;
* `src/os/src/utils/num.rs` — `align_up` / `align_down`;
* the frame-allocator contract of `src/os/src/mm/frame` (`alloc_managed`
  returning one frame or `OutOfMemory`), modelled as a list of available
  physical page numbers.

Modelling conventions: `usize` is modelled as `Nat`; every place where the
source masks a value (`& PPN_MASK`, `& FLAGS_MASK`, the `u8` width of
`PageTableFlags`) the mask is explicit in the definition.  Subtractions in the
algorithms (`au_st - vpn`, `ed - ad_ed`, `index_ed - index_st`) are on results
of `align_up`/`align_down` where the first operand is never smaller in the
executions covered here, matching `usize` arithmetic.  `debug_assert!` is
compiled out of release builds and is therefore modelled as a no-op; the
in-place mutation of the Rust code becomes explicit state passing.  Frames
freed by `unfill` simply leave the tree; no claim below depends on a freed
frame being allocated again inside the same call.
-/

set_option maxRecDepth 1000000

namespace Karox

/-- `PageDirTrait::LEVEL_WIDTH` for the RISC-V `PageDir` (Sv39). -/
def LEVEL_WIDTH : Nat := 9

/-- `PTABLE_ENTRY_COUNT = 1 << LEVEL_WIDTH` (`src/os/src/arch/riscv/mm/config.rs`). -/
def PTABLE_ENTRY_COUNT : Nat := 512

/-- `PTABLE_MAX_LEVEL` for Sv39 (`src/os/src/arch/riscv/mm/sv.rs`): the root
page directory is at level 2, leaf directories at level 0. -/
def PTABLE_MAX_LEVEL : Nat := 2

/-- `PageDirTrait::PPN_ALIGNED` for the RISC-V `PageDir`. -/
def PPN_ALIGNED : Bool := true

-- Flag bits of `PageTableFlags` (a `u8` bitset).
def FLAG_VALID : Nat := 1
def FLAG_R : Nat := 2
def FLAG_W : Nat := 4
def FLAG_X : Nat := 8
def FLAG_RWX : Nat := 14
def FLAG_USER : Nat := 16
def FLAG_GLOBAL : Nat := 32
def FLAG_ACCESSED : Nat := 64
def FLAG_DIRTY : Nat := 128

/-- `PageTableFlags::PREDEFINED_DIR = VALID | DIR` (`DIR` has no bits). -/
def PREDEFINED_DIR : Nat := 1

/-- `PageTableEntry::FLAGS_MASK = (1 << 8) - 1`. -/
def FLAGS_MASK : Nat := 255

/-- `PageTableEntry::PPN_MASK = (1 << (54 - 10)) - 1`, the 44-bit PPN field. -/
def PPN_MASK : Nat := 2 ^ 44 - 1

/-- `PageTableEntry::create(ppn, flags)`: `((ppn & PPN_MASK) << 10) | flags.bits`.
The `&&& FLAGS_MASK` records that `PageTableFlags` is a `u8` bitset. -/
def entryCreate (ppn flags : Nat) : Nat :=
  ((ppn &&& PPN_MASK) <<< 10) ||| (flags &&& FLAGS_MASK)

/-- `PageTableEntry::create_invalid()`: the all-zero word. -/
def entryCreateInvalid : Nat := 0

/-- `PageTableEntry::get_flags`: `from_bits_truncate((word & FLAGS_MASK) as u8)`;
all eight low bits are defined flags, so the truncation keeps them all. -/
def entryGetFlags (e : Nat) : Nat := e &&& FLAGS_MASK

/-- `PageTableEntry::get_ppn`: `(word >> 10) & PPN_MASK`. -/
def entryGetPpn (e : Nat) : Nat := (e >>> 10) &&& PPN_MASK

/-- `PageTableEntry::is_valid`: `get_flags().contains(VALID)`. -/
def entryIsValid (e : Nat) : Bool := (entryGetFlags e) &&& FLAG_VALID == FLAG_VALID

/-- `PageTableEntry::is_dir` as written in the source:
`!self.get_flags().intersects(PageTableFlags::RWX)` — note that it does not
consult the `VALID` bit. -/
def entryIsDir (e : Nat) : Bool := (entryGetFlags e) &&& FLAG_RWX == 0

/-- `align_up` from `src/os/src/utils/num.rs`. -/
def alignUp (x a : Nat) : Nat := if x % a = 0 then x else x + (a - x % a)

/-- `align_down` from `src/os/src/utils/num.rs`. -/
def alignDown (x a : Nat) : Nat := if x % a = 0 then x else x - x % a

/-- `calc_index` from `src/os/src/mm/paging.rs`: extract the directory index of
`vpn` at the given level; with `non_zero` set, an extracted index of `0` is
reported as the out-of-range sentinel `PTABLE_ENTRY_COUNT`. -/
def calc_index (vpn level_offset level_width : Nat) (non_zero : Bool) : Nat :=
  let res := (vpn >>> level_offset) &&& ((1 <<< level_width) - 1)
  if non_zero && res == 0 then PTABLE_ENTRY_COUNT else res

-- Basic bridges from the bit operations to `%` and `/`.

theorem alignDown_eq (x a : Nat) : alignDown x a = x - x % a := by
  unfold alignDown
  by_cases h : x % a = 0 <;> simp [h]

theorem alignUp_eq (x a : Nat) (h : x % a ≠ 0) :
    alignUp x a = x + (a - x % a) := by
  unfold alignUp
  simp [h]

theorem calc_index_eq (vpn level_offset : Nat) (non_zero : Bool) :
    calc_index vpn level_offset LEVEL_WIDTH non_zero =
      if non_zero ∧ (vpn >>> level_offset) % 512 = 0 then PTABLE_ENTRY_COUNT
      else (vpn >>> level_offset) % 512 := by
  unfold calc_index LEVEL_WIDTH
  have h : ((1 <<< 9 : Nat) - 1) = 2 ^ 9 - 1 := by decide
  rw [h, Nat.and_pow_two_sub_one_eq_mod]
  have h9 : (2 : Nat) ^ 9 = 512 := by norm_num
  rw [h9]
  cases non_zero
  · simp
  · by_cases hz : (vpn >>> level_offset) % 512 = 0 <;> simp [hz]

-- region: PageDir (tracker) and the frame allocator model

/-- `PageDir` (`src/os/src/arch/riscv/mm/paging.rs`): one owned frame (identified
by its physical page number) holding a `RawPageDir` of `PTABLE_ENTRY_COUNT`
hardware entries, plus an owned optional child tracker per index.  The two
fixed-size arrays are modelled as total functions from the index; only indices
below `PTABLE_ENTRY_COUNT` are ever read or written by the algorithms. -/
inductive PageDir where
  | mk (framePpn : Nat) (raw : Nat → Nat) (subdirs : Nat → Option PageDir)

def PageDir.framePpn : PageDir → Nat
  | .mk p _ _ => p

def PageDir.rawFn : PageDir → Nat → Nat
  | .mk _ r _ => r

def PageDir.subdirsFn : PageDir → Nat → Option PageDir
  | .mk _ _ s => s

/-- `RawPageDir::get_value(i)`. -/
def rawGet (d : PageDir) (i : Nat) : Nat := d.rawFn i

/-- `RawPageDir::set_value(i, v)`. -/
def rawSet (d : PageDir) (i v : Nat) : PageDir :=
  .mk d.framePpn (fun j => if j = i then v else d.rawFn j) d.subdirsFn

/-- Read `subdirs[i]` (`get_or_none` / `get_mut_or_none` return it as-is). -/
def subdirGet (d : PageDir) (i : Nat) : Option PageDir := d.subdirsFn i

/-- Write `subdirs[i]`. -/
def subdirSet (d : PageDir) (i : Nat) (o : Option PageDir) : PageDir :=
  .mk d.framePpn d.rawFn (fun j => if j = i then o else d.subdirsFn j)

/-- `PageDir::new_empty(frame)`: fresh tracker over a frame whose entries are
all `create_invalid()` after `clear()`, with no children. -/
def newEmpty (p : Nat) : PageDir :=
  .mk p (fun _ => 0) (fun _ => none)

/-- `PageDir::fill(index, ppn, count, step, flags)`: write `count` consecutive
entries, entry `i` being `create(ppn + i * step, flags)`.  The source's
`debug_assert!` that the overwritten entries are invalid is compiled out of
release builds and is a no-op here. -/
def PageDir.fill (d : PageDir) (index ppn count step flags : Nat) : PageDir :=
  match count with
  | 0 => d
  | c + 1 => (rawSet d index (entryCreate ppn flags)).fill (index + 1) (ppn + step) c step flags

/-- First loop of `PageDir::unfill`: invalidate `count` raw entries. -/
def unfillRawLoop (d : PageDir) (index count : Nat) : PageDir :=
  match count with
  | 0 => d
  | c + 1 => unfillRawLoop (rawSet d index entryCreateInvalid) (index + 1) c

/-- Second loop of `PageDir::unfill`: drop `count` child trackers. -/
def unfillSubLoop (d : PageDir) (index count : Nat) : PageDir :=
  match count with
  | 0 => d
  | c + 1 => unfillSubLoop (subdirSet d index none) (index + 1) c

/-- `PageDir::unfill(index, count)`. -/
def PageDir.unfill (d : PageDir) (index count : Nat) : PageDir :=
  unfillSubLoop (unfillRawLoop d index count) index count

/-- `PageDir::is_mapped(index, count)`: some entry in the range is valid and has
no child tracker (entries pointing to subdirectories are not counted). -/
def PageDir.is_mapped (d : PageDir) (index count : Nat) : Bool :=
  match count with
  | 0 => false
  | c + 1 =>
    ((subdirGet d index).isNone && entryIsValid (rawGet d index)) ||
      d.is_mapped (index + 1) c

/-- Frame allocator model: the list of physical page numbers it can still hand
out.  `alloc_managed()` pops the head or fails with `OutOfMemory`. -/
structure Alloc where
  free : List Nat

def allocManaged (a : Alloc) : Option (Nat × Alloc) :=
  match a.free with
  | [] => none
  | p :: rest => some (p, Alloc.mk rest)

/-- `PageDir::get_or_expand(index, expand_step)`: return the child at `index`,
creating it if absent.  When the hardware entry was a valid (huge-page) entry,
the fresh child is filled with `PTABLE_ENTRY_COUNT` copies of that mapping at
`expand_step` granularity before the parent entry is rewritten to a directory
link.  Returns the updated parent, the child, and the allocator; `none` models
`Err(FrameAllocatorError::OutOfMemory)` (parent unchanged). -/
def getOrExpand (d : PageDir) (index expandStep : Nat) (a : Alloc) :
    Option (PageDir × PageDir × Alloc) :=
  match subdirGet d index with
  | some c => some (d, c, a)
  | none =>
    match allocManaged a with
    | none => none
    | some (p, a1) =>
      let dir0 := newEmpty p
      let e := rawGet d index
      let dir1 :=
        if entryIsValid e then
          dir0.fill 0 (entryGetPpn e) PTABLE_ENTRY_COUNT expandStep (entryGetFlags e)
        else dir0
      let d1 := rawSet d index (entryCreate p PREDEFINED_DIR)
      some (subdirSet d1 index (some dir1), dir1, a1)

-- endregion

-- region: recursive walk algorithms of src/os/src/mm/paging.rs

/-- `check_subpage` from `src/os/src/mm/paging.rs`, with the recursive call to
`is_mapped_internal` at `level - 1` passed in as `f`. -/
def check_subpage (f : PageDir → Nat → Nat → Bool) (table : PageDir)
    (index vpn_sub count_sub : Nat) : Bool :=
  if table.is_mapped index 1 then true
  else
    match subdirGet table index with
    | some sub => f sub vpn_sub count_sub
    | none => false

/-- `is_mapped_internal`: the read-only conflict-check walk. -/
def is_mapped_internal (table : PageDir) (vpn count level : Nat) : Bool :=
  if count = 0 then false
  else
    let level_width := LEVEL_WIDTH
    let level_offset := level * level_width
    let subpg_size := 1 <<< level_offset
    match level with
    | 0 => table.is_mapped (calc_index vpn level_offset level_width false) count
    | l + 1 =>
      let ad_st := alignDown vpn subpg_size
      let au_st := alignUp vpn subpg_size
      let ed := vpn + count
      let ad_ed := alignDown ed subpg_size
      if ad_st = ad_ed then
        check_subpage (fun t v c => is_mapped_internal t v c l) table
          (calc_index vpn level_offset level_width false) vpn count
      else
        (decide (vpn ≠ ad_st) &&
          check_subpage (fun t v c => is_mapped_internal t v c l) table
            (calc_index vpn level_offset level_width false) vpn (au_st - vpn)) ||
        (decide (ed ≠ ad_ed) &&
          check_subpage (fun t v c => is_mapped_internal t v c l) table
            (calc_index ed level_offset level_width false) ad_ed (ed - ad_ed)) ||
        (let index_st := calc_index au_st level_offset level_width false
         let index_ed := calc_index ad_ed level_offset level_width true
         table.is_mapped index_st (index_ed - index_st) ||
           (List.range (index_ed - index_st)).any fun i =>
             match subdirGet table (i + index_st) with
             | some sub => is_mapped_internal sub (au_st + subpg_size * i) subpg_size l
             | none => false)

/-- `clear_pages_on_failure`: the rollback walk run by `map` after an
allocation failure; `unfill`s the whole range, skipping levels that were never
created (`get_mut_or_none` returning `None`). -/
def clearPagesOnFailure (table : PageDir) (vpn count level : Nat) : PageDir :=
  if count = 0 then table
  else
    let level_width := LEVEL_WIDTH
    let level_offset := level * level_width
    let subpg_size := 1 <<< level_offset
    match level with
    | 0 => table.unfill (calc_index vpn level_offset level_width false) (count / subpg_size)
    | l + 1 =>
      let ad_st := alignDown vpn subpg_size
      let au_st := alignUp vpn subpg_size
      let ed := vpn + count
      let ad_ed := alignDown ed subpg_size
      if ad_st = ad_ed then
        match subdirGet table (calc_index vpn level_offset level_width false) with
        | some sub =>
          subdirSet table (calc_index vpn level_offset level_width false)
            (some (clearPagesOnFailure sub vpn count l))
        | none => table
      else
        let t1 :=
          if vpn ≠ ad_st then
            match subdirGet table (calc_index vpn level_offset level_width false) with
            | some sub =>
              subdirSet table (calc_index vpn level_offset level_width false)
                (some (clearPagesOnFailure sub vpn (au_st - vpn) l))
            | none => table
          else table
        let t2 :=
          if ed ≠ ad_ed then
            match subdirGet t1 (calc_index ed level_offset level_width false) with
            | some sub =>
              subdirSet t1 (calc_index ed level_offset level_width false)
                (some (clearPagesOnFailure sub ad_ed (ed - ad_ed) l))
            | none => t1
          else t1
        let index_st := calc_index au_st level_offset level_width false
        let index_ed := calc_index ad_ed level_offset level_width true
        t2.unfill index_st (index_ed - index_st)

/-- `expand_pages`: descend and create (without writing leaf data) the boundary
subdirectories that a subsequent `clear_pages_internal` will need.  The third
component is `false` when an allocation failed (error propagated by `?`, the
mutations so far are kept). -/
def expandPages (table : PageDir) (vpn count level : Nat) (a : Alloc) :
    PageDir × Alloc × Bool :=
  if count = 0 then (table, a, true)
  else
    let level_width := LEVEL_WIDTH
    let level_offset := level * level_width
    let subpg_size := 1 <<< level_offset
    match level with
    | 0 => (table, a, true)
    | l + 1 =>
      let subsub := 1 <<< (l * level_width)
      let ad_st := alignDown vpn subpg_size
      let au_st := alignUp vpn subpg_size
      let ed := vpn + count
      let ad_ed := alignDown ed subpg_size
      if ad_st = ad_ed then
        match getOrExpand table (calc_index vpn level_offset level_width false) subsub a with
        | none => (table, a, false)
        | some (t1, sub, a1) =>
          match expandPages sub vpn count l a1 with
          | (sub', a2, ok) =>
            (subdirSet t1 (calc_index vpn level_offset level_width false) (some sub'), a2, ok)
      else
        let afterFirst : PageDir × Alloc × Bool :=
          if vpn ≠ ad_st then
            match getOrExpand table (calc_index vpn level_offset level_width false) subsub a with
            | none => (table, a, false)
            | some (t1, sub, a1) =>
              match expandPages sub vpn (au_st - vpn) l a1 with
              | (sub', a2, ok) =>
                (subdirSet t1 (calc_index vpn level_offset level_width false) (some sub'), a2, ok)
          else (table, a, true)
        match afterFirst with
        | (t1, a1, false) => (t1, a1, false)
        | (t1, a1, true) =>
          if ed ≠ ad_ed then
            match getOrExpand t1 (calc_index ed level_offset level_width false) subsub a1 with
            | none => (t1, a1, false)
            | some (t2, sub, a2) =>
              match expandPages sub ad_ed (ed - ad_ed) l a2 with
              | (sub', a3, ok) =>
                (subdirSet t2 (calc_index ed level_offset level_width false) (some sub'), a3, ok)
          else (t1, a1, true)

/-- `clear_pages_internal`: unconditional teardown of the range.  `none` models
a panic of one of its `.unwrap()` calls (a `get_or_expand` failing); otherwise
the updated table and allocator are returned. -/
def clearPagesInternal (table : PageDir) (vpn count level : Nat) (a : Alloc) :
    Option (PageDir × Alloc) :=
  if count = 0 then some (table, a)
  else
    let level_width := LEVEL_WIDTH
    let level_offset := level * level_width
    let subpg_size := 1 <<< level_offset
    match level with
    | 0 =>
      some (table.unfill (calc_index vpn level_offset level_width false) (count / subpg_size), a)
    | l + 1 =>
      let subsub := 1 <<< (l * level_width)
      let ad_st := alignDown vpn subpg_size
      let au_st := alignUp vpn subpg_size
      let ed := vpn + count
      let ad_ed := alignDown ed subpg_size
      if ad_st = ad_ed then
        match getOrExpand table (calc_index vpn level_offset level_width false) subsub a with
        | none => none
        | some (t1, sub, a1) =>
          match clearPagesInternal sub vpn count l a1 with
          | none => none
          | some (sub', a2) =>
            some (subdirSet t1 (calc_index vpn level_offset level_width false) (some sub'), a2)
      else
        let afterFirst : Option (PageDir × Alloc) :=
          if vpn ≠ ad_st then
            match getOrExpand table (calc_index vpn level_offset level_width false) subsub a with
            | none => none
            | some (t1, sub, a1) =>
              match clearPagesInternal sub vpn (au_st - vpn) l a1 with
              | none => none
              | some (sub', a2) =>
                some (subdirSet t1 (calc_index vpn level_offset level_width false) (some sub'), a2)
          else some (table, a)
        match afterFirst with
        | none => none
        | some (t1, a1) =>
          let afterLast : Option (PageDir × Alloc) :=
            if ed ≠ ad_ed then
              match getOrExpand t1 (calc_index ed level_offset level_width false) subsub a1 with
              | none => none
              | some (t2, sub, a2) =>
                match clearPagesInternal sub ad_ed (ed - ad_ed) l a2 with
                | none => none
                | some (sub', a3) =>
                  some (subdirSet t2 (calc_index ed level_offset level_width false) (some sub'), a3)
            else some (t1, a1)
          match afterLast with
          | none => none
          | some (t2, a2) =>
            let index_st := calc_index au_st level_offset level_width false
            let index_ed := calc_index ad_ed level_offset level_width true
            some (t2.unfill index_st (index_ed - index_st), a2)

/-- Middle loop of `map_pages_internal` when the physical alignment does not
match: expand each whole slot of `[index_st, index_ed)` one level down and map
it there.  `f` is `map_pages_internal` at `level - 1`; `i` is the iteration
counter, `n` the remaining iterations. -/
def expandMapLoop (f : PageDir → Nat → Nat → Alloc → PageDir × Alloc × Bool)
    (table : PageDir) (a : Alloc) (index_st au_st subpg_size vpn ppn subsub : Nat) :
    Nat → Nat → PageDir × Alloc × Bool
  | _, 0 => (table, a, true)
  | i, n + 1 =>
    match getOrExpand table (i + index_st) subsub a with
    | none => (table, a, false)
    | some (t1, sub, a1) =>
      match f sub (au_st + subpg_size * i) (ppn + (au_st + subpg_size * i - vpn)) a1 with
      | (sub', a2, ok) =>
        let t2 := subdirSet t1 (i + index_st) (some sub')
        if ok then expandMapLoop f t2 a2 index_st au_st subpg_size vpn ppn subsub (i + 1) n
        else (t2, a2, false)

/-- `map_pages_internal`: write the mapping for `[vpn, vpn + count)`, splitting
the range into an unaligned first part, a middle run and an unaligned last
part at each directory level.  The third component is `false` on
`OutOfMemory`; the entries already written are kept (the caller rolls back). -/
def mapPagesInternal (table : PageDir) (vpn ppn count flags level : Nat) (a : Alloc) :
    PageDir × Alloc × Bool :=
  if count = 0 then (table, a, true)
  else
    let level_width := LEVEL_WIDTH
    let level_offset := level * level_width
    let subpg_size := 1 <<< level_offset
    match level with
    | 0 =>
      (table.fill (calc_index vpn level_offset level_width false) ppn
        (count / subpg_size) subpg_size flags, a, true)
    | l + 1 =>
      let subsub := 1 <<< (l * level_width)
      let ad_st := alignDown vpn subpg_size
      let au_st := alignUp vpn subpg_size
      let ed := vpn + count
      let ad_ed := alignDown ed subpg_size
      if ad_st = ad_ed then
        match getOrExpand table (calc_index vpn level_offset level_width false) subsub a with
        | none => (table, a, false)
        | some (t1, sub, a1) =>
          match mapPagesInternal sub vpn ppn count flags l a1 with
          | (sub', a2, ok) =>
            (subdirSet t1 (calc_index vpn level_offset level_width false) (some sub'), a2, ok)
      else
        let afterFirst : PageDir × Alloc × Bool :=
          if vpn ≠ ad_st then
            match getOrExpand table (calc_index vpn level_offset level_width false) subsub a with
            | none => (table, a, false)
            | some (t1, sub, a1) =>
              match mapPagesInternal sub vpn ppn (au_st - vpn) flags l a1 with
              | (sub', a2, ok) =>
                (subdirSet t1 (calc_index vpn level_offset level_width false) (some sub'), a2, ok)
          else (table, a, true)
        match afterFirst with
        | (t1, a1, false) => (t1, a1, false)
        | (t1, a1, true) =>
          let afterLast : PageDir × Alloc × Bool :=
            if ed ≠ ad_ed then
              match getOrExpand t1 (calc_index ed level_offset level_width false) subsub a1 with
              | none => (t1, a1, false)
              | some (t2, sub, a2) =>
                match mapPagesInternal sub ad_ed (ppn + (ad_ed - vpn)) (ed - ad_ed) flags l a2 with
                | (sub', a3, ok) =>
                  (subdirSet t2 (calc_index ed level_offset level_width false) (some sub'), a3, ok)
            else (t1, a1, true)
          match afterLast with
          | (t2, a2, false) => (t2, a2, false)
          | (t2, a2, true) =>
            let mid_ppn_st := ppn + (au_st - vpn)
            if PPN_ALIGNED = false ∨ mid_ppn_st % subpg_size = 0 then
              (t2.fill (calc_index au_st level_offset level_width false) mid_ppn_st
                ((ad_ed - au_st) / subpg_size) subpg_size flags, a2, true)
            else
              let index_st := calc_index au_st level_offset level_width false
              let index_ed := calc_index ad_ed level_offset level_width true
              expandMapLoop (fun sub v p aa => mapPagesInternal sub v p subpg_size flags l aa)
                t2 a2 index_st au_st subpg_size vpn ppn subsub 0 (index_ed - index_st)

/-- Outcome of `PageTable::map`. -/
inductive MapOutcome where
  | success
  | conflict
  | oom
deriving DecidableEq

/-- `PageTable::map(vpn, ppn, count, flags)`: conflict pre-check, then mapping,
then rollback on allocation failure. -/
def tableMap (root : PageDir) (vpn ppn count flags : Nat) (a : Alloc) :
    PageDir × Alloc × MapOutcome :=
  if is_mapped_internal root vpn count PTABLE_MAX_LEVEL then (root, a, .conflict)
  else
    match mapPagesInternal root vpn ppn count flags PTABLE_MAX_LEVEL a with
    | (d, a1, true) => (d, a1, .success)
    | (d, a1, false) => (clearPagesOnFailure d vpn count PTABLE_MAX_LEVEL, a1, .oom)

/-- `PageTable::clear(vpn, count)`: expansion phase, then unconditional
teardown.  `none` models a panic inside `clear_pages_internal`; `false` the
`Err(FrameAllocatorError)` return from the expansion phase. -/
def tableClear (root : PageDir) (vpn count : Nat) (a : Alloc) :
    Option (PageDir × Alloc × Bool) :=
  match expandPages root vpn count PTABLE_MAX_LEVEL a with
  | (d, a1, false) => some (d, a1, false)
  | (d, a1, true) =>
    match clearPagesInternal d vpn count PTABLE_MAX_LEVEL a1 with
    | none => none
    | some (d2, a2) => some (d2, a2, true)

-- endregion

-- region: decode walk, frame accounting, concrete scenario states

/-- Decode of virtual page `vpn` through the table, following the Sv39 walk:
read the entry selected by the level's index bits with the source's
`get_ppn`/`get_flags`; a valid entry carrying an R/W/X bit is a terminal
(leaf or huge-page) translation, a valid entry without them is a directory
link into the child tracker. -/
def translate (d : PageDir) (vpn : Nat) : (level : Nat) → Option (Nat × Nat)
  | 0 =>
    let e := rawGet d (vpn &&& ((1 <<< LEVEL_WIDTH) - 1))
    if entryIsValid e then some (entryGetPpn e, entryGetFlags e) else none
  | l + 1 =>
    let e := rawGet d ((vpn >>> ((l + 1) * LEVEL_WIDTH)) &&& ((1 <<< LEVEL_WIDTH) - 1))
    if entryIsValid e = false then none
    else if (entryGetFlags e) &&& FLAG_RWX ≠ 0 then
      some (entryGetPpn e + (vpn &&& ((1 <<< ((l + 1) * LEVEL_WIDTH)) - 1)), entryGetFlags e)
    else
      match subdirGet d ((vpn >>> ((l + 1) * LEVEL_WIDTH)) &&& ((1 <<< LEVEL_WIDTH) - 1)) with
      | some sub => translate sub vpn l
      | none => none

/-- Virtual page `vpn` is already mapped: the decode walk reaches a valid leaf
or huge-page entry at some depth. -/
def mappedAtAnyDepth (d : PageDir) (vpn level : Nat) : Bool :=
  (translate d vpn level).isSome

/-- Number of physical frames held by the (sub)table: one frame per tracker
node.  `fuel` bounds the descent depth (`PTABLE_MAX_LEVEL + 1` suffices for
every table the algorithms build). -/
def frameCount : Nat → PageDir → Nat
  | 0, _ => 1
  | fuel + 1, d =>
    1 + (List.range PTABLE_ENTRY_COUNT).foldl
      (fun acc i =>
        acc + match subdirGet d i with
              | some c => frameCount fuel c
              | none => 0) 0

/-- Child tracker at `i`, defaulting to an empty placeholder. -/
def subdirD (d : PageDir) (i : Nat) : PageDir := (subdirGet d i).getD (newEmpty 0)

/-- Frames available to the demonstration scenarios below. -/
def demoAlloc : Alloc := Alloc.mk [100, 101, 102, 103, 104, 105]

/-- A fresh `PageTable` root, as built by `PageTable::new()` (frame 99). -/
def freshRoot : PageDir := newEmpty 99

/-- State and allocator after `clear(0, 1)` on the fresh table: it expands a
directory chain root → level-1 → level-0 (consuming frames 100 and 101) and
invalidates the single leaf entry. -/
def afterClear : PageDir × Alloc :=
  match tableClear freshRoot 0 1 demoAlloc with
  | some (d, a, _) => (d, a)
  | none => (freshRoot, demoAlloc)

/-- State and allocator after the further call `map(0, 0, 2^18, VALID|RWX)`:
the range is one whole root slot and both sides are aligned, so the middle run
writes one huge-page entry directly at root slot 0 — on top of the directory
entry left by `clear`, whose child tracker stays attached. -/
def afterHugeMap : PageDir × Alloc :=
  ((tableMap afterClear.1 0 0 262144 15 afterClear.2).1,
   (tableMap afterClear.1 0 0 262144 15 afterClear.2).2.1)

/-- The third call `map(0, 5, 1, VALID|RWX)`, on a page that the huge entry
already maps. -/
def conflictCall : PageDir × Alloc × MapOutcome :=
  tableMap afterHugeMap.1 0 5 1 15 afterHugeMap.2

/-- Frames available to the clear-then-map comparison runs. -/
def c8alloc : Alloc := Alloc.mk [200, 201, 202, 203, 204, 205]

/-- One clear-then-map run from starting state `s`: `clear(5, 1)` followed by
`map(5, 7, 1, VALID|RWX)`, returning the decode of virtual page 5 in the
resulting table when both calls succeed (and `none` when either fails). -/
def c8run (s : PageDir) : Option (Nat × Nat) :=
  match tableClear s 5 1 c8alloc with
  | some (t, b, true) =>
    (match tableMap t 5 7 1 15 b with
     | (u, _, .success) => translate u 5 2
     | _ => none)
  | _ => none

-- endregion

-- region: claim theorems (concrete refutations)

/-- C1: REFUTED on the code.  `afterHugeMap.1` is reachable (`new()`, then
`clear(0,1)`, then `map(0, 0, 2^18, VALID|RWX)`, all returning `Ok`), and in it
virtual page 0 is covered by a valid huge-page entry at the root.  Yet
`map(0, 5, 1, VALID|RWX)` returns `Ok` instead of `ConflictMappingError`, and
it mutates the table: the leaf entry for page 0 inside the stale child chain
changes from invalid to `create(5, VALID|RWX)`.  The conflict walk misses the
huge entry because root slot 0 still carries the child tracker that the huge
write trampled, so `is_mapped` skips the slot and the walk descends into the
stale (empty) subtree. -/
theorem c1_overlapping_map_not_rejected :
    (match tableClear freshRoot 0 1 demoAlloc with
     | some (_, _, ok) => ok
     | none => false) = true ∧
    (tableMap afterClear.1 0 0 262144 15 afterClear.2).2.2 = MapOutcome.success ∧
    mappedAtAnyDepth afterHugeMap.1 0 PTABLE_MAX_LEVEL = true ∧
    conflictCall.2.2 = MapOutcome.success ∧
    rawGet (subdirD (subdirD afterHugeMap.1 0) 0) 0 = 0 ∧
    rawGet (subdirD (subdirD conflictCall.1 0) 0) 0 = entryCreate 5 15 := by
  decide

/-- C2: REFUTED on the code.  On a fresh table with one free frame,
`map(5, 0, 1, VALID|RWX)` allocates the level-1 directory, then fails with
`OutOfMemory` on the level-0 directory.  `map` returns the wrapped error and
the rollback leaves no page of the range mapped, but the created level-1
directory chain is kept: the table holds 2 frames instead of the pre-call 1. -/
theorem c2_rollback_keeps_created_chain :
    (tableMap freshRoot 5 0 1 15 (Alloc.mk [100])).2.2 = MapOutcome.oom ∧
    is_mapped_internal (tableMap freshRoot 5 0 1 15 (Alloc.mk [100])).1 5 1
      PTABLE_MAX_LEVEL = false ∧
    frameCount 3 freshRoot = 1 ∧
    frameCount 3 (tableMap freshRoot 5 0 1 15 (Alloc.mk [100])).1 = 2 := by
  decide

/-- C3: supporting theorem for the refutation.  For `map(262142, ppn, 2, f)`
the level-1 walk has `au_st = ad_ed = 262144`: the aligned middle is empty and
ends exactly at the level-1 table's span end.  `calc_index` with `non_zero =
false` wraps the start index to 0 while the end index is the sentinel 512, so
the "expand" branch processes 512 phantom slots instead of 0, mapping garbage
over the whole table (including the just-written unaligned first part). -/
theorem c3_phantom_mid_slot_range :
    alignUp 262142 (1 <<< (1 * LEVEL_WIDTH)) = 262144 ∧
    alignDown (262142 + 2) (1 <<< (1 * LEVEL_WIDTH)) = 262144 ∧
    (262144 - 262144) / (1 <<< (1 * LEVEL_WIDTH)) = 0 ∧
    calc_index 262144 (1 * LEVEL_WIDTH) LEVEL_WIDTH false = 0 ∧
    calc_index 262144 (1 * LEVEL_WIDTH) LEVEL_WIDTH true = PTABLE_ENTRY_COUNT := by
  decide

/-- C5: REFUTED on the code.  In the reachable state `afterHugeMap.1` (see C1),
root slot 0 has a child tracker attached while its hardware entry is a valid
non-directory (huge-page) entry, so `subdirs[i].is_some()` holds but
`is_valid && is_dir()` does not: `fill` does not maintain the invariant when
the aligned middle run of `map` writes over a directory entry. -/
theorem c5_tracker_invariant_broken :
    (match tableClear freshRoot 0 1 demoAlloc with
     | some (_, _, ok) => ok
     | none => false) = true ∧
    (tableMap afterClear.1 0 0 262144 15 afterClear.2).2.2 = MapOutcome.success ∧
    (subdirGet afterHugeMap.1 0).isSome = true ∧
    entryIsValid (rawGet afterHugeMap.1 0) = true ∧
    entryIsDir (rawGet afterHugeMap.1 0) = false := by
  decide

/-- C6: REFUTED on the code.  `is_dir` tests only the absence of R/W/X and
ignores `VALID`: on the all-zero invalid entry it returns `true` although the
entry is not valid, contradicting the claimed "valid and carries none of
R/W/X" characterisation. -/
theorem c6_is_dir_ignores_valid :
    entryIsDir entryCreateInvalid = true ∧ entryIsValid entryCreateInvalid = false := by
  decide

/-- C7: `calc_index` returns the sentinel `PTABLE_ENTRY_COUNT` (instead of a
wrapped 0) exactly when the index bits are zero and `non_zero` is set; in
particular a range bound lying on a multiple of the next level's span — a
range ending exactly on a table boundary — gets end index `PTABLE_ENTRY_COUNT`. -/
theorem c7_calc_index_sentinel (vpn level : Nat) :
    ((vpn >>> (level * LEVEL_WIDTH)) &&& ((1 <<< LEVEL_WIDTH) - 1) = 0 →
      calc_index vpn (level * LEVEL_WIDTH) LEVEL_WIDTH true = PTABLE_ENTRY_COUNT ∧
      PTABLE_ENTRY_COUNT ≠ 0) ∧
    ((vpn >>> (level * LEVEL_WIDTH)) &&& ((1 <<< LEVEL_WIDTH) - 1) ≠ 0 →
      calc_index vpn (level * LEVEL_WIDTH) LEVEL_WIDTH true =
        (vpn >>> (level * LEVEL_WIDTH)) &&& ((1 <<< LEVEL_WIDTH) - 1)) ∧
    (calc_index vpn (level * LEVEL_WIDTH) LEVEL_WIDTH false =
      (vpn >>> (level * LEVEL_WIDTH)) &&& ((1 <<< LEVEL_WIDTH) - 1)) ∧
    (vpn % (1 <<< ((level + 1) * LEVEL_WIDTH)) = 0 →
      calc_index vpn (level * LEVEL_WIDTH) LEVEL_WIDTH true = PTABLE_ENTRY_COUNT) := by
  refine ⟨fun h => ⟨?_, by decide⟩, fun h => ?_, ?_, fun h => ?_⟩
  · simp [calc_index, h]
  · simp only [calc_index]
    have : ((vpn >>> (level * LEVEL_WIDTH)) &&& ((1 <<< LEVEL_WIDTH) - 1) == 0) = false := by
      simpa using h
    simp [this]
  · simp [calc_index]
  · have hd : vpn >>> (level * LEVEL_WIDTH) = vpn / 2 ^ (level * LEVEL_WIDTH) :=
      Nat.shiftRight_eq_div_pow vpn (level * LEVEL_WIDTH)
    have hm : (1 <<< LEVEL_WIDTH : Nat) - 1 = 2 ^ LEVEL_WIDTH - 1 := by decide
    have hz : (vpn >>> (level * LEVEL_WIDTH)) &&& ((1 <<< LEVEL_WIDTH) - 1) = 0 := by
      rw [hm, Nat.and_pow_two_sub_one_eq_mod, hd]
      have hsp : (1 <<< ((level + 1) * LEVEL_WIDTH) : Nat) =
          2 ^ (level * LEVEL_WIDTH) * 2 ^ LEVEL_WIDTH := by
        rw [Nat.shiftLeft_eq, one_mul, ← pow_add]
        ring_nf
      rw [hsp] at h
      have hdvd : 2 ^ (level * LEVEL_WIDTH) * 2 ^ LEVEL_WIDTH ∣ vpn :=
        Nat.dvd_of_mod_eq_zero h
      rcases hdvd with ⟨k, hk⟩
      subst hk
      have hq : 2 ^ (level * LEVEL_WIDTH) * 2 ^ LEVEL_WIDTH * k / 2 ^ (level * LEVEL_WIDTH) =
          2 ^ LEVEL_WIDTH * k := by
        rw [Nat.mul_assoc]
        exact Nat.mul_div_cancel_left _ (Nat.pos_pow_of_pos _ (by norm_num))
      rw [hq, Nat.mul_mod_right]
    simp [calc_index, hz]

/-- Witness for C7 at `vpn = 262144`, `level = 1`: the index bits are zero and
the sentinel is returned for the end index. -/
theorem c7_calc_index_sentinel_witness :
    calc_index 262144 (1 * LEVEL_WIDTH) LEVEL_WIDTH true = PTABLE_ENTRY_COUNT ∧
    PTABLE_ENTRY_COUNT ≠ 0 :=
  (c7_calc_index_sentinel 262144 1).1 (by decide)

/-- C8: REFUTED on the code.  Run `clear(5, 1)` then `map(5, 7, 1, VALID|RWX)`
from two states that differ in `[5, 6)`: `afterHugeMap.1` — reachable through
`new()`, `clear(0, 1)`, `map(0, 0, 2^18, VALID|RWX)`, all returning `Ok`, in
which page 5 is covered by the huge-page entry at root slot 0 — and the empty
`freshRoot`.  Both clears and both maps succeed (the `some`/`success` matches
inside `c8run` check this), yet page 5 decodes to physical page 5 in the first
result and to the requested page 7 in the second: `clear` never removes the
huge entry because the stale child tracker at root slot 0 makes
`get_or_expand` return the subdirectory without splitting, and `map` then
writes the new leaf into the subtree that the hardware entry shadows. -/
theorem c8_clear_then_map_state_dependent :
    c8run afterHugeMap.1 = some (5, 15) ∧ c8run freshRoot = some (7, 15) := by
  decide

-- endregion

-- region: entry encoding and fill lemmas

@[simp] theorem framePpn_mk (p : Nat) (r : Nat → Nat) (s : Nat → Option PageDir) :
    (PageDir.mk p r s).framePpn = p := rfl

@[simp] theorem rawFn_mk (p : Nat) (r : Nat → Nat) (s : Nat → Option PageDir) :
    (PageDir.mk p r s).rawFn = r := rfl

@[simp] theorem subdirsFn_mk (p : Nat) (r : Nat → Nat) (s : Nat → Option PageDir) :
    (PageDir.mk p r s).subdirsFn = s := rfl

@[simp] theorem rawGet_rawSet (d : PageDir) (i v j : Nat) :
    rawGet (rawSet d i v) j = if j = i then v else rawGet d j := rfl

@[simp] theorem rawGet_subdirSet (d : PageDir) (i : Nat) (o : Option PageDir) (j : Nat) :
    rawGet (subdirSet d i o) j = rawGet d j := rfl

@[simp] theorem subdirGet_rawSet (d : PageDir) (i v j : Nat) :
    subdirGet (rawSet d i v) j = subdirGet d j := rfl

@[simp] theorem subdirGet_subdirSet (d : PageDir) (i : Nat) (o : Option PageDir) (j : Nat) :
    subdirGet (subdirSet d i o) j = if j = i then o else subdirGet d j := rfl

@[simp] theorem rawGet_newEmpty (p i : Nat) : rawGet (newEmpty p) i = 0 := rfl

@[simp] theorem subdirGet_newEmpty (p i : Nat) : subdirGet (newEmpty p) i = none := rfl

/-- The packed entry is the 44-bit-truncated PPN in bits 10..54 plus the 8 flag
bits: the two fields are disjoint, so the source's `|` is an addition. -/
theorem entryCreate_eq (ppn f : Nat) :
    entryCreate ppn f = 2 ^ 10 * (ppn % 2 ^ 44) + f % 2 ^ 8 := by
  unfold entryCreate PPN_MASK FLAGS_MASK
  have h1 : ppn &&& (2 ^ 44 - 1) = ppn % 2 ^ 44 := Nat.and_pow_two_sub_one_eq_mod ppn 44
  have h255 : (2 : Nat) ^ 8 - 1 = 255 := by norm_num
  have h2 : f &&& 255 = f % 2 ^ 8 := by
    have h := Nat.and_pow_two_sub_one_eq_mod f 8
    rw [h255] at h
    exact h
  rw [h1, h2, Nat.shiftLeft_eq]
  have hlt : f % 2 ^ 8 < 2 ^ 10 :=
    lt_of_lt_of_le (Nat.mod_lt _ (by norm_num)) (by norm_num)
  rw [Nat.mul_comm (ppn % 2 ^ 44) (2 ^ 10)]
  exact (Nat.mul_add_lt_is_or hlt _).symm

theorem entryGetFlags_create (ppn f : Nat) :
    entryGetFlags (entryCreate ppn f) = f % 2 ^ 8 := by
  rw [entryCreate_eq]
  unfold entryGetFlags FLAGS_MASK
  have h := Nat.and_pow_two_sub_one_eq_mod (2 ^ 10 * (ppn % 2 ^ 44) + f % 2 ^ 8) 8
  have h255 : (2 : Nat) ^ 8 - 1 = 255 := by norm_num
  rw [h255] at h
  rw [h]
  omega

theorem entryGetPpn_create (ppn f : Nat) :
    entryGetPpn (entryCreate ppn f) = ppn % 2 ^ 44 := by
  rw [entryCreate_eq]
  unfold entryGetPpn PPN_MASK
  rw [Nat.shiftRight_eq_div_pow, Nat.and_pow_two_sub_one_eq_mod]
  omega

theorem entryGetFlags_lt (e : Nat) : entryGetFlags e < 2 ^ 8 := by
  unfold entryGetFlags FLAGS_MASK
  have h := Nat.and_pow_two_sub_one_eq_mod e 8
  have h255 : (2 : Nat) ^ 8 - 1 = 255 := by norm_num
  rw [h255] at h
  rw [h]
  exact Nat.mod_lt _ (by norm_num)

/-- `fill` writes exactly the entries `[index, index + count)`, entry `j`
becoming `create(ppn + (j - index) * step, flags)`. -/
theorem fill_rawGet (count : Nat) :
    ∀ (d : PageDir) (index ppn step flags j : Nat),
      rawGet (d.fill index ppn count step flags) j =
        if index ≤ j ∧ j < index + count then
          entryCreate (ppn + (j - index) * step) flags
        else rawGet d j := by
  induction count with
  | zero =>
    intro d index ppn step flags j
    simp only [PageDir.fill]
    have h : ¬(index ≤ j ∧ j < index + 0) := by omega
    rw [if_neg h]
  | succ c ih =>
    intro d index ppn step flags j
    simp only [PageDir.fill]
    rw [ih]
    by_cases h1 : index + 1 ≤ j ∧ j < index + 1 + c
    · rw [if_pos h1, if_pos (by omega : index ≤ j ∧ j < index + (c + 1))]
      have hj : j - index = (j - (index + 1)) + 1 := by omega
      rw [hj]
      ring_nf
    · rw [if_neg h1, rawGet_rawSet]
      by_cases h2 : j = index
      · subst h2
        rw [if_pos rfl, if_pos (by omega : j ≤ j ∧ j < j + (c + 1))]
        simp
      · rw [if_neg h2, if_neg (by omega : ¬(index ≤ j ∧ j < index + (c + 1)))]

theorem fill_subdirGet (count : Nat) :
    ∀ (d : PageDir) (index ppn step flags j : Nat),
      subdirGet (d.fill index ppn count step flags) j = subdirGet d j := by
  induction count with
  | zero => intro d index ppn step flags j; simp [PageDir.fill]
  | succ c ih =>
    intro d index ppn step flags j
    simp only [PageDir.fill]
    rw [ih, subdirGet_rawSet]

/-- Splitting the low `a + LEVEL_WIDTH` bits of `vpn` into the directory index
at offset `a` and the remaining low bits. -/
theorem index_low_bits_split (vpn a : Nat) :
    ((vpn >>> a) &&& (2 ^ LEVEL_WIDTH - 1)) * 2 ^ a + (vpn &&& (2 ^ a - 1)) =
      vpn &&& (2 ^ (a + LEVEL_WIDTH) - 1) := by
  rw [Nat.and_pow_two_sub_one_eq_mod, Nat.and_pow_two_sub_one_eq_mod,
    Nat.and_pow_two_sub_one_eq_mod, Nat.shiftRight_eq_div_pow, pow_add, Nat.mod_mul]
  ring

-- endregion

-- region: C4 — get_or_expand splitting a huge page

theorem one_shiftLeft (n : Nat) : (1 <<< n : Nat) = 2 ^ n := by
  rw [Nat.shiftLeft_eq, one_mul]

theorem entryGetFlags_create_of (ppn f : Nat) (h : f < 2 ^ 8) :
    entryGetFlags (entryCreate ppn f) = f := by
  rw [entryGetFlags_create, Nat.mod_eq_of_lt h]

theorem entryIsValid_create_of (ppn f : Nat) (h : f < 2 ^ 8) :
    entryIsValid (entryCreate ppn f) = (f &&& FLAG_VALID == FLAG_VALID) := by
  unfold entryIsValid
  rw [entryGetFlags_create, Nat.mod_eq_of_lt h]

/-- C4 counterexample: a huge-page entry with the maximal 44-bit page number
`2^44 - 1` and flags `VALID|RWX`, split with `expand_step = 1`.  The claim says
child entry `k` decodes to `p + k * expand_step`; at `k = 1` the packed value
truncates `2^44` to the 44-bit field, so the decoded page number is `0`. -/
theorem c4_split_truncates_ppn_cex :
    (match getOrExpand (rawSet (newEmpty 50) 0 (entryCreate (2 ^ 44 - 1) 15)) 0 1
        (Alloc.mk [60]) with
     | some (_, c, _) => entryGetPpn (rawGet c 1)
     | none => 1) = 0 ∧ (0 : Nat) ≠ (2 ^ 44 - 1) + 1 * 1 := by
  decide

/-- C4 (amended): when the hardware entry at `index` is a valid huge-page
mapping with page number `p` and flags `f` carrying an R/W/X bit, no child is
attached, a frame is available, `expand_step` is the child level's span
`2^(L * LEVEL_WIDTH)`, and `p + (ENTRY_COUNT-1) * expand_step` still fits the
44-bit PPN field, then a successful `get_or_expand(index, expand_step)` fills
the new child with `ENTRY_COUNT` entries, entry `k` decoding to
`p + k * expand_step` with flags `f`, rewrites the parent entry at `index` to a
directory link, and every virtual page previously covered by the huge entry
still translates to the same physical page and flags. -/
theorem c4_huge_split_preserves_mapping
    (d : PageDir) (index L fp : Nat) (rest : List Nat) (a : Alloc) (k vpn : Nat)
    (hsub : subdirGet d index = none)
    (ha : a.free = fp :: rest)
    (hv : entryIsValid (rawGet d index) = true)
    (hrwx : entryGetFlags (rawGet d index) &&& FLAG_RWX ≠ 0)
    (hk : k < PTABLE_ENTRY_COUNT)
    (hvpn : (vpn >>> ((L + 1) * LEVEL_WIDTH)) &&& ((1 <<< LEVEL_WIDTH) - 1) = index)
    (hbound : entryGetPpn (rawGet d index) +
        (PTABLE_ENTRY_COUNT - 1) * 2 ^ (L * LEVEL_WIDTH) < 2 ^ 44) :
    ∃ dNew c,
      getOrExpand d index (2 ^ (L * LEVEL_WIDTH)) a = some (dNew, c, Alloc.mk rest) ∧
      rawGet c k =
        entryCreate (entryGetPpn (rawGet d index) + k * 2 ^ (L * LEVEL_WIDTH))
          (entryGetFlags (rawGet d index)) ∧
      entryGetPpn (rawGet c k) =
        entryGetPpn (rawGet d index) + k * 2 ^ (L * LEVEL_WIDTH) ∧
      entryGetFlags (rawGet c k) = entryGetFlags (rawGet d index) ∧
      rawGet dNew index = entryCreate fp PREDEFINED_DIR ∧
      translate dNew vpn (L + 1) = translate d vpn (L + 1) := by
  have hW : LEVEL_WIDTH = 9 := rfl
  have hEC : PTABLE_ENTRY_COUNT = 512 := rfl
  set e := rawGet d index with he
  set p0 := entryGetPpn e with hp0
  set f0 := entryGetFlags e with hf0
  set step := 2 ^ (L * LEVEL_WIDTH) with hstep
  have hstep_pos : 0 < step := Nat.pos_pow_of_pos _ (by norm_num)
  have hf0lt : f0 < 2 ^ 8 := entryGetFlags_lt e
  -- the child directory and the updated parent produced by get_or_expand
  set c := (newEmpty fp).fill 0 p0 PTABLE_ENTRY_COUNT step f0 with hc
  set dm := subdirSet (rawSet d index (entryCreate fp PREDEFINED_DIR)) index (some c)
    with hdm
  have hrun : getOrExpand d index step a = some (dm, c, Alloc.mk rest) := by
    unfold getOrExpand allocManaged
    rw [hsub, ha]
    simp only [← he, hv, if_true, ← hp0, ← hf0, ← hc, ← hdm]
  -- entries of the child
  have hentry : ∀ j, j < PTABLE_ENTRY_COUNT →
      rawGet c j = entryCreate (p0 + j * step) f0 := by
    intro j hj
    rw [hc, fill_rawGet]
    rw [if_pos (by omega : 0 ≤ j ∧ j < 0 + PTABLE_ENTRY_COUNT)]
    simp
  have hppn_bound : ∀ j, j < PTABLE_ENTRY_COUNT → p0 + j * step < 2 ^ 44 := by
    intro j hj
    have : j * step ≤ (PTABLE_ENTRY_COUNT - 1) * step :=
      Nat.mul_le_mul_right _ (by omega)
    omega
  have hdecode : ∀ j, j < PTABLE_ENTRY_COUNT →
      entryGetPpn (rawGet c j) = p0 + j * step ∧ entryGetFlags (rawGet c j) = f0 := by
    intro j hj
    rw [hentry j hj, entryGetPpn_create, entryGetFlags_create_of _ _ hf0lt,
      Nat.mod_eq_of_lt (hppn_bound j hj)]
    exact ⟨rfl, rfl⟩
  have hparent : rawGet dm index = entryCreate fp PREDEFINED_DIR := by
    rw [hdm]
    simp
  refine ⟨dm, c, hrun, hentry k hk, (hdecode k hk).1, (hdecode k hk).2, hparent, ?_⟩
  -- translation preservation
  have hvalid_f0 : (f0 &&& FLAG_VALID == FLAG_VALID) = true := by
    have := hv
    unfold entryIsValid at this
    exact this
  have hmask9 : ((1 <<< LEVEL_WIDTH : Nat) - 1) = 2 ^ LEVEL_WIDTH - 1 := by
    rw [one_shiftLeft]
  have hvpn' : (vpn >>> ((L + 1) * LEVEL_WIDTH)) % 2 ^ LEVEL_WIDTH = index := by
    rw [← Nat.and_pow_two_sub_one_eq_mod, ← hmask9]
    exact hvpn
  -- right-hand side: the huge entry translates directly
  have hRHS : translate d vpn (L + 1) =
      some (p0 + vpn % 2 ^ ((L + 1) * LEVEL_WIDTH), f0) := by
    simp only [translate, one_shiftLeft, Nat.and_pow_two_sub_one_eq_mod]
    rw [hvpn', ← he]
    simp [hv, hrwx, ← hp0, ← hf0]
  rw [hRHS]
  -- left-hand side: walk through the new directory entry into the child
  have hdirflags : entryGetFlags (entryCreate fp PREDEFINED_DIR) = PREDEFINED_DIR :=
    entryGetFlags_create_of _ _ (by decide)
  have hdirvalid : entryIsValid (entryCreate fp PREDEFINED_DIR) = true := by
    rw [entryIsValid_create_of _ _ (by decide)]
    decide
  have hsubc : subdirGet dm index = some c := by
    rw [hdm]
    simp
  have hLHS1 : translate dm vpn (L + 1) = translate c vpn L := by
    simp only [translate, one_shiftLeft, Nat.and_pow_two_sub_one_eq_mod]
    rw [hvpn', hparent, hdirvalid, hdirflags, hsubc]
    simp [PREDEFINED_DIR, FLAG_RWX]
  rw [hLHS1]
  -- the child's entry for vpn
  cases L with
  | zero =>
    have hidx : vpn % 2 ^ LEVEL_WIDTH < PTABLE_ENTRY_COUNT := by
      rw [hEC, hW]
      exact Nat.mod_lt _ (by norm_num)
    have hidx' : (vpn &&& (2 ^ LEVEL_WIDTH - 1)) < PTABLE_ENTRY_COUNT := by
      rw [Nat.and_pow_two_sub_one_eq_mod]
      exact hidx
    have hiv : entryIsValid (rawGet c (vpn % 2 ^ LEVEL_WIDTH)) = true := by
      rw [← Nat.and_pow_two_sub_one_eq_mod, hentry _ hidx', entryIsValid_create_of _ _ hf0lt]
      exact hvalid_f0
    have hE1 : entryGetPpn (rawGet c (vpn % 2 ^ LEVEL_WIDTH)) =
        p0 + (vpn % 2 ^ LEVEL_WIDTH) * step := by
      rw [← Nat.and_pow_two_sub_one_eq_mod]
      exact (hdecode _ hidx').1
    have hE2 : entryGetFlags (rawGet c (vpn % 2 ^ LEVEL_WIDTH)) = f0 := by
      rw [← Nat.and_pow_two_sub_one_eq_mod]
      exact (hdecode _ hidx').2
    simp only [translate, one_shiftLeft, Nat.and_pow_two_sub_one_eq_mod]
    simp [hiv, hE1, hE2]
    rw [hstep]
    simp
  | succ l =>
    have hidx : (vpn >>> ((l + 1) * LEVEL_WIDTH)) % 2 ^ LEVEL_WIDTH <
        PTABLE_ENTRY_COUNT := by
      rw [hEC, hW]
      exact Nat.mod_lt _ (by norm_num)
    have hidx' : ((vpn >>> ((l + 1) * LEVEL_WIDTH)) &&& (2 ^ LEVEL_WIDTH - 1)) <
        PTABLE_ENTRY_COUNT := by
      rw [Nat.and_pow_two_sub_one_eq_mod]
      exact hidx
    have hiv : entryIsValid (rawGet c ((vpn >>> ((l + 1) * LEVEL_WIDTH)) %
        2 ^ LEVEL_WIDTH)) = true := by
      rw [← Nat.and_pow_two_sub_one_eq_mod, hentry _ hidx', entryIsValid_create_of _ _ hf0lt]
      exact hvalid_f0
    have hE1 : entryGetPpn (rawGet c ((vpn >>> ((l + 1) * LEVEL_WIDTH)) % 2 ^ LEVEL_WIDTH)) =
        p0 + ((vpn >>> ((l + 1) * LEVEL_WIDTH)) % 2 ^ LEVEL_WIDTH) * step := by
      rw [← Nat.and_pow_two_sub_one_eq_mod]
      exact (hdecode _ hidx').1
    have hE2 : entryGetFlags (rawGet c ((vpn >>> ((l + 1) * LEVEL_WIDTH)) %
        2 ^ LEVEL_WIDTH)) = f0 := by
      rw [← Nat.and_pow_two_sub_one_eq_mod]
      exact (hdecode _ hidx').2
    have hsplit : ((vpn >>> ((l + 1) * LEVEL_WIDTH)) % 2 ^ LEVEL_WIDTH) *
        2 ^ ((l + 1) * LEVEL_WIDTH) + vpn % 2 ^ ((l + 1) * LEVEL_WIDTH) =
        vpn % 2 ^ ((l + 1 + 1) * LEVEL_WIDTH) := by
      rw [Nat.shiftRight_eq_div_pow]
      have hpow : (2 : Nat) ^ ((l + 1 + 1) * LEVEL_WIDTH) =
          2 ^ ((l + 1) * LEVEL_WIDTH) * 2 ^ LEVEL_WIDTH := by
        rw [← pow_add]
        ring_nf
      rw [hpow, Nat.mod_mul]
      ring
    simp only [translate, one_shiftLeft, Nat.and_pow_two_sub_one_eq_mod]
    simp [hiv, hrwx, hE1, hE2]
    rw [hstep]
    have hgoal : p0 + (((vpn >>> ((l + 1) * LEVEL_WIDTH)) % 2 ^ LEVEL_WIDTH) *
        2 ^ ((l + 1) * LEVEL_WIDTH) + vpn % 2 ^ ((l + 1) * LEVEL_WIDTH)) =
        p0 + vpn % 2 ^ ((l + 1 + 1) * LEVEL_WIDTH) := by
      rw [hsplit]
    rw [← Nat.add_assoc] at hgoal
    exact hgoal

/-- Witness for C4 at a concrete split: a huge entry with page number 777 and
flags `VALID|RWX` at index 0 of a one-entry parent, split with step 1. -/
theorem c4_huge_split_preserves_mapping_witness :
    ∃ dNew c,
      getOrExpand (rawSet (newEmpty 50) 0 (entryCreate 777 15)) 0 (2 ^ (0 * LEVEL_WIDTH))
        (Alloc.mk [60]) = some (dNew, c, Alloc.mk []) ∧
      rawGet c 3 =
        entryCreate
          (entryGetPpn (rawGet (rawSet (newEmpty 50) 0 (entryCreate 777 15)) 0) +
            3 * 2 ^ (0 * LEVEL_WIDTH))
          (entryGetFlags (rawGet (rawSet (newEmpty 50) 0 (entryCreate 777 15)) 0)) ∧
      entryGetPpn (rawGet c 3) =
        entryGetPpn (rawGet (rawSet (newEmpty 50) 0 (entryCreate 777 15)) 0) +
          3 * 2 ^ (0 * LEVEL_WIDTH) ∧
      entryGetFlags (rawGet c 3) =
        entryGetFlags (rawGet (rawSet (newEmpty 50) 0 (entryCreate 777 15)) 0) ∧
      rawGet dNew 0 = entryCreate 60 PREDEFINED_DIR ∧
      translate dNew 3 (0 + 1) = translate (rawSet (newEmpty 50) 0 (entryCreate 777 15)) 3 (0 + 1) :=
  c4_huge_split_preserves_mapping (rawSet (newEmpty 50) 0 (entryCreate 777 15)) 0 0 60 []
    (Alloc.mk [60]) 3 3 rfl rfl (by decide) (by decide) (by decide) (by decide) (by decide)

-- endregion

-- region: C9 — clear_pages_internal never panics after a successful expansion

theorem getOrExpand_sub (d : PageDir) (i s : Nat) (a : Alloc) (t1 sub : PageDir) (a1 : Alloc)
    (h : getOrExpand d i s a = some (t1, sub, a1)) : subdirGet t1 i = some sub := by
  unfold getOrExpand at h
  cases hs : subdirGet d i with
  | some c =>
    rw [hs] at h
    simp at h
    obtain ⟨h1, h2, h3⟩ := h
    subst h1; subst h2
    exact hs
  | none =>
    rw [hs] at h
    unfold allocManaged at h
    cases ha : a.free with
    | nil => rw [ha] at h; simp at h
    | cons p rest =>
      rw [ha] at h
      simp at h
      obtain ⟨h1, h2, h3⟩ := h
      subst h1; subst h2
      simp

theorem getOrExpand_of_some (d : PageDir) (i s : Nat) (a : Alloc) (c : PageDir)
    (h : subdirGet d i = some c) : getOrExpand d i s a = some (d, c, a) := by
  unfold getOrExpand
  rw [h]

theorem case1_span {vpn count s : Nat} (hs : 0 < s)
    (h : alignDown vpn s = alignDown (vpn + count) s) :
    vpn % s + count ≤ s := by
  rw [alignDown_eq, alignDown_eq] at h
  have h1 := Nat.mod_le vpn s
  have h2 := Nat.mod_le (vpn + count) s
  have h3 := Nat.mod_lt (vpn + count) hs
  omega

theorem first_span {vpn s : Nat} (hs : 0 < s) (hne : vpn % s ≠ 0) :
    vpn % s + (alignUp vpn s - vpn) ≤ s := by
  rw [alignUp_eq _ _ hne]
  have h1 := Nat.mod_lt vpn hs
  omega

theorem last_span {ed s : Nat} (hs : 0 < s) :
    (alignDown ed s) % s + (ed - alignDown ed s) ≤ s := by
  rw [alignDown_eq]
  have h1 := Nat.mod_le ed s
  have h2 := Nat.mod_lt ed hs
  have h3 : (ed - ed % s) % s = 0 := by
    have h4 := Nat.div_add_mod ed s
    have h5 : ed - ed % s = s * (ed / s) := by omega
    rw [h5]
    exact Nat.mul_mod_right _ _
  omega


theorem first_last_index_ne {vpn count s : Nat} (hs : 0 < s)
    (hspan : vpn % (s * 512) + count ≤ s * 512)
    (hAD : alignDown vpn s ≠ alignDown (vpn + count) s)
    (hsuf : (vpn + count) % s ≠ 0) :
    vpn / s % 512 ≠ (vpn + count) / s % 512 := by
  intro hEq
  have key1 : s * (vpn / s) + vpn % s = vpn := Nat.div_add_mod vpn s
  have key2 : s * ((vpn + count) / s) + (vpn + count) % s = vpn + count :=
    Nat.div_add_mod (vpn + count) s
  have e1 : vpn - vpn % s = s * (vpn / s) := Nat.sub_eq_of_eq_add key1.symm
  have e2 : (vpn + count) - (vpn + count) % s = s * ((vpn + count) / s) :=
    Nat.sub_eq_of_eq_add key2.symm
  have hne : vpn / s ≠ (vpn + count) / s := by
    intro hq
    apply hAD
    rw [alignDown_eq, alignDown_eq, e1, e2, hq]
  have hle : vpn / s ≤ (vpn + count) / s :=
    Nat.div_le_div_right (Nat.le_add_right vpn count)
  -- lower bound on vpn / s
  have hlowmul : (vpn / (s * 512)) * (s * 512) ≤ vpn := Nat.div_mul_le_self _ _
  have hlow : 512 * (vpn / (s * 512)) ≤ vpn / s := by
    rw [Nat.le_div_iff_mul_le hs]
    calc 512 * (vpn / (s * 512)) * s = (vpn / (s * 512)) * (s * 512) := by ring
    _ ≤ vpn := hlowmul
  -- upper bound on (vpn + count) / s
  have e3 : vpn - vpn % (s * 512) = (s * 512) * (vpn / (s * 512)) :=
    Nat.sub_eq_of_eq_add (Nat.div_add_mod vpn (s * 512)).symm
  have hmod_le : vpn % (s * 512) ≤ vpn := Nat.mod_le _ _
  have hup0 : vpn + count ≤ (s * 512) * (vpn / (s * 512)) + s * 512 := by omega
  have hup1 : vpn + count ≠ (512 * (vpn / (s * 512)) + 512) * s := by
    intro h
    apply hsuf
    rw [h]
    exact Nat.mul_mod_left _ _
  have hup2 : vpn + count < (512 * (vpn / (s * 512)) + 512) * s := by
    have : (s * 512) * (vpn / (s * 512)) + s * 512 = (512 * (vpn / (s * 512)) + 512) * s := by
      ring
    omega
  have hup : (vpn + count) / s < 512 * (vpn / (s * 512)) + 512 :=
    (Nat.div_lt_iff_lt_mul hs).mpr hup2
  omega

theorem calc_index_false_eq (vpn off : Nat) :
    calc_index vpn off LEVEL_WIDTH false = vpn / 2 ^ off % 512 := by
  rw [calc_index_eq]
  simp [Nat.shiftRight_eq_div_pow]


theorem getOrExpand_other (d : PageDir) (i s : Nat) (a : Alloc) (t1 sub : PageDir) (a1 : Alloc)
    (h : getOrExpand d i s a = some (t1, sub, a1)) :
    ∀ j, j ≠ i → subdirGet t1 j = subdirGet d j := by
  intro j hj
  unfold getOrExpand at h
  cases hs : subdirGet d i with
  | some c =>
    rw [hs] at h
    simp at h
    obtain ⟨h1, h2, h3⟩ := h
    subst h1
    rfl
  | none =>
    rw [hs] at h
    unfold allocManaged at h
    cases ha : a.free with
    | nil => rw [ha] at h; simp at h
    | cons p rest =>
      rw [ha] at h
      simp at h
      obtain ⟨h1, h2, h3⟩ := h
      subst h1
      simp [hj]

theorem expand_then_clear (L : Nat) :
    ∀ (d : PageDir) (vpn count : Nat) (a : Alloc) (d₁ : PageDir) (a₁ : Alloc),
      vpn % 2 ^ ((L + 1) * LEVEL_WIDTH) + count ≤ 2 ^ ((L + 1) * LEVEL_WIDTH) →
      expandPages d vpn count L a = (d₁, a₁, true) →
      ∀ b : Alloc, ∃ d₂, clearPagesInternal d₁ vpn count L b = some (d₂, b) := by
  induction L with
  | zero =>
    intro d vpn count a d₁ a₁ hspan hexp b
    unfold expandPages at hexp
    by_cases hc : count = 0
    · simp [hc] at hexp
      obtain ⟨rfl, rfl⟩ := hexp
      unfold clearPagesInternal
      simp [hc]
    · simp [hc] at hexp
      obtain ⟨rfl, rfl⟩ := hexp
      unfold clearPagesInternal
      simp [hc]
  | succ l ih =>
    intro d vpn count a d₁ a₁ hspan hexp
    by_cases hc : count = 0
    · unfold expandPages at hexp
      simp [hc] at hexp
      obtain ⟨rfl, rfl⟩ := hexp
      intro b
      unfold clearPagesInternal
      simp [hc]
    unfold expandPages at hexp
    rw [if_neg hc] at hexp
    dsimp only [] at hexp
    simp only [one_shiftLeft] at hexp
    have hspos : 0 < (2 : Nat) ^ ((l + 1) * LEVEL_WIDTH) := Nat.pos_pow_of_pos _ (by norm_num)
    have hpow2 : (2 : Nat) ^ ((l + 1 + 1) * LEVEL_WIDTH) =
        2 ^ ((l + 1) * LEVEL_WIDTH) * 512 := by
      have h1 : (l + 1 + 1) * LEVEL_WIDTH = (l + 1) * LEVEL_WIDTH + LEVEL_WIDTH := by ring
      rw [h1, pow_add]
      norm_num [LEVEL_WIDTH]
    by_cases hAD : alignDown vpn (2 ^ ((l + 1) * LEVEL_WIDTH)) =
        alignDown (vpn + count) (2 ^ ((l + 1) * LEVEL_WIDTH))
    · rw [if_pos hAD] at hexp
      cases hGE : getOrExpand d
          (calc_index vpn ((l + 1) * LEVEL_WIDTH) LEVEL_WIDTH false)
          (2 ^ (l * LEVEL_WIDTH)) a with
      | none => rw [hGE] at hexp; simp at hexp
      | some tpl =>
        obtain ⟨t1, sub, a1'⟩ := tpl
        rw [hGE] at hexp
        dsimp only [] at hexp
        rcases hR : expandPages sub vpn count l a1' with ⟨sub', a2, ok⟩
        rw [hR] at hexp
        simp only [Prod.mk.injEq] at hexp
        obtain ⟨hd1, ha1, hok⟩ := hexp
        cases ok with
        | false => exact absurd hok (by simp)
        | true =>
        subst hd1
        subst ha1
        intro b
        have hspan1 : vpn % 2 ^ ((l + 1) * LEVEL_WIDTH) + count ≤
            2 ^ ((l + 1) * LEVEL_WIDTH) := case1_span hspos hAD
        obtain ⟨sub'', hclr⟩ := ih sub vpn count a1' sub' a2 hspan1 hR b
        unfold clearPagesInternal
        rw [if_neg hc]
        dsimp only []
        simp only [one_shiftLeft]
        rw [if_pos hAD]
        rw [getOrExpand_of_some _ _ _ _ _ (by simp :
          subdirGet (subdirSet t1
            (calc_index vpn ((l + 1) * LEVEL_WIDTH) LEVEL_WIDTH false) (some sub'))
            (calc_index vpn ((l + 1) * LEVEL_WIDTH) LEVEL_WIDTH false) = some sub')]
        dsimp only []
        rw [hclr]
        exact ⟨_, rfl⟩
    · -- the range crosses a slot boundary
      rw [if_neg hAD] at hexp
      by_cases hPF : vpn ≠ alignDown vpn (2 ^ ((l + 1) * LEVEL_WIDTH))
      · rw [if_pos hPF] at hexp
        have hPFmod : vpn % 2 ^ ((l + 1) * LEVEL_WIDTH) ≠ 0 := by
          intro h0
          apply hPF
          rw [alignDown_eq, h0, Nat.sub_zero]
        have hspanPF : vpn % 2 ^ ((l + 1) * LEVEL_WIDTH) +
            (alignUp vpn (2 ^ ((l + 1) * LEVEL_WIDTH)) - vpn) ≤
            2 ^ ((l + 1) * LEVEL_WIDTH) := first_span hspos hPFmod
        cases hGE1 : getOrExpand d
            (calc_index vpn ((l + 1) * LEVEL_WIDTH) LEVEL_WIDTH false)
            (2 ^ (l * LEVEL_WIDTH)) a with
        | none => rw [hGE1] at hexp; simp at hexp
        | some tpl1 =>
          obtain ⟨t1, subV, a1'⟩ := tpl1
          rw [hGE1] at hexp
          dsimp only [] at hexp
          rcases hR1 : expandPages subV vpn
              (alignUp vpn (2 ^ ((l + 1) * LEVEL_WIDTH)) - vpn) l a1' with ⟨subV', a2, okV⟩
          rw [hR1] at hexp
          dsimp only [] at hexp
          cases okV with
          | false => simp at hexp
          | true =>
          dsimp only [] at hexp
          by_cases hSF : vpn + count ≠
              alignDown (vpn + count) (2 ^ ((l + 1) * LEVEL_WIDTH))
          · rw [if_pos hSF] at hexp
            have hSFmod : (vpn + count) % 2 ^ ((l + 1) * LEVEL_WIDTH) ≠ 0 := by
              intro h0
              apply hSF
              rw [alignDown_eq, h0, Nat.sub_zero]
            have hspanSF : (alignDown (vpn + count) (2 ^ ((l + 1) * LEVEL_WIDTH))) %
                2 ^ ((l + 1) * LEVEL_WIDTH) +
                ((vpn + count) - alignDown (vpn + count) (2 ^ ((l + 1) * LEVEL_WIDTH))) ≤
                2 ^ ((l + 1) * LEVEL_WIDTH) := last_span hspos
            have hsne : calc_index vpn ((l + 1) * LEVEL_WIDTH) LEVEL_WIDTH false ≠
                calc_index (vpn + count) ((l + 1) * LEVEL_WIDTH) LEVEL_WIDTH false := by
              rw [calc_index_false_eq, calc_index_false_eq]
              exact first_last_index_ne hspos (by rw [← hpow2]; exact hspan) hAD hSFmod
            cases hGE2 : getOrExpand
                (subdirSet t1 (calc_index vpn ((l + 1) * LEVEL_WIDTH) LEVEL_WIDTH false)
                  (some subV'))
                (calc_index (vpn + count) ((l + 1) * LEVEL_WIDTH) LEVEL_WIDTH false)
                (2 ^ (l * LEVEL_WIDTH)) a2 with
            | none => rw [hGE2] at hexp; simp at hexp
            | some tpl2 =>
              obtain ⟨t2, subE, a2'⟩ := tpl2
              rw [hGE2] at hexp
              dsimp only [] at hexp
              rcases hR2 : expandPages subE
                  (alignDown (vpn + count) (2 ^ ((l + 1) * LEVEL_WIDTH)))
                  ((vpn + count) - alignDown (vpn + count) (2 ^ ((l + 1) * LEVEL_WIDTH)))
                  l a2' with ⟨subE', a3, okE⟩
              rw [hR2] at hexp
              simp only [Prod.mk.injEq] at hexp
              obtain ⟨hd1, ha1, hokE⟩ := hexp
              cases okE with
              | false => exact absurd hokE (by simp)
              | true =>
              subst hd1
              subst ha1
              intro b
              obtain ⟨subV'', hclrV⟩ := ih subV vpn
                (alignUp vpn (2 ^ ((l + 1) * LEVEL_WIDTH)) - vpn) a1' subV' a2 hspanPF hR1 b
              obtain ⟨subE'', hclrE⟩ := ih subE
                (alignDown (vpn + count) (2 ^ ((l + 1) * LEVEL_WIDTH)))
                ((vpn + count) - alignDown (vpn + count) (2 ^ ((l + 1) * LEVEL_WIDTH)))
                a2' subE' a3 hspanSF hR2 b
              have hsubV : subdirGet
                  (subdirSet t2 (calc_index (vpn + count) ((l + 1) * LEVEL_WIDTH)
                    LEVEL_WIDTH false) (some subE'))
                  (calc_index vpn ((l + 1) * LEVEL_WIDTH) LEVEL_WIDTH false) = some subV' := by
                rw [subdirGet_subdirSet, if_neg hsne]
                rw [getOrExpand_other _ _ _ _ _ _ _ hGE2 _ hsne]
                simp
              unfold clearPagesInternal
              rw [if_neg hc]
              dsimp only []
              simp only [one_shiftLeft]
              rw [if_neg hAD, if_pos hPF]
              rw [getOrExpand_of_some _ _ _ _ _ hsubV]
              dsimp only []
              rw [hclrV]
              dsimp only []
              rw [if_pos hSF]
              have hsubE : subdirGet
                  (subdirSet (subdirSet t2
                      (calc_index (vpn + count) ((l + 1) * LEVEL_WIDTH) LEVEL_WIDTH false)
                      (some subE'))
                    (calc_index vpn ((l + 1) * LEVEL_WIDTH) LEVEL_WIDTH false) (some subV''))
                  (calc_index (vpn + count) ((l + 1) * LEVEL_WIDTH) LEVEL_WIDTH false) =
                  some subE' := by
                rw [subdirGet_subdirSet, if_neg (Ne.symm hsne), subdirGet_subdirSet, if_pos rfl]
              rw [getOrExpand_of_some _ _ _ _ _ hsubE]
              dsimp only []
              rw [hclrE]
              exact ⟨_, rfl⟩
          · rw [if_neg hSF] at hexp
            simp only [Prod.mk.injEq] at hexp
            obtain ⟨hd1, ha1, -⟩ := hexp
            subst hd1
            subst ha1
            intro b
            obtain ⟨subV'', hclrV⟩ := ih subV vpn
              (alignUp vpn (2 ^ ((l + 1) * LEVEL_WIDTH)) - vpn) a1' subV' a2 hspanPF hR1 b
            unfold clearPagesInternal
            rw [if_neg hc]
            dsimp only []
            simp only [one_shiftLeft]
            rw [if_neg hAD, if_pos hPF]
            rw [getOrExpand_of_some _ _ _ _ _ (by simp :
              subdirGet (subdirSet t1
                (calc_index vpn ((l + 1) * LEVEL_WIDTH) LEVEL_WIDTH false) (some subV'))
                (calc_index vpn ((l + 1) * LEVEL_WIDTH) LEVEL_WIDTH false) = some subV')]
            dsimp only []
            rw [hclrV]
            dsimp only []
            rw [if_neg hSF]
            exact ⟨_, rfl⟩
      · rw [if_neg hPF] at hexp
        dsimp only [] at hexp
        by_cases hSF : vpn + count ≠
            alignDown (vpn + count) (2 ^ ((l + 1) * LEVEL_WIDTH))
        · rw [if_pos hSF] at hexp
          have hspanSF : (alignDown (vpn + count) (2 ^ ((l + 1) * LEVEL_WIDTH))) %
              2 ^ ((l + 1) * LEVEL_WIDTH) +
              ((vpn + count) - alignDown (vpn + count) (2 ^ ((l + 1) * LEVEL_WIDTH))) ≤
              2 ^ ((l + 1) * LEVEL_WIDTH) := last_span hspos
          cases hGE2 : getOrExpand d
              (calc_index (vpn + count) ((l + 1) * LEVEL_WIDTH) LEVEL_WIDTH false)
              (2 ^ (l * LEVEL_WIDTH)) a with
          | none => rw [hGE2] at hexp; simp at hexp
          | some tpl2 =>
            obtain ⟨t2, subE, a2'⟩ := tpl2
            rw [hGE2] at hexp
            dsimp only [] at hexp
            rcases hR2 : expandPages subE
                (alignDown (vpn + count) (2 ^ ((l + 1) * LEVEL_WIDTH)))
                ((vpn + count) - alignDown (vpn + count) (2 ^ ((l + 1) * LEVEL_WIDTH)))
                l a2' with ⟨subE', a3, okE⟩
            rw [hR2] at hexp
            simp only [Prod.mk.injEq] at hexp
            obtain ⟨hd1, ha1, hokE⟩ := hexp
            cases okE with
            | false => exact absurd hokE (by simp)
            | true =>
            subst hd1
            subst ha1
            intro b
            obtain ⟨subE'', hclrE⟩ := ih subE
              (alignDown (vpn + count) (2 ^ ((l + 1) * LEVEL_WIDTH)))
              ((vpn + count) - alignDown (vpn + count) (2 ^ ((l + 1) * LEVEL_WIDTH)))
              a2' subE' a3 hspanSF hR2 b
            unfold clearPagesInternal
            rw [if_neg hc]
            dsimp only []
            simp only [one_shiftLeft]
            rw [if_neg hAD, if_neg hPF]
            dsimp only []
            rw [if_pos hSF]
            rw [getOrExpand_of_some _ _ _ _ _ (by simp :
              subdirGet (subdirSet t2
                (calc_index (vpn + count) ((l + 1) * LEVEL_WIDTH) LEVEL_WIDTH false)
                (some subE'))
                (calc_index (vpn + count) ((l + 1) * LEVEL_WIDTH) LEVEL_WIDTH false) =
                some subE')]
            dsimp only []
            rw [hclrE]
            exact ⟨_, rfl⟩
        · rw [if_neg hSF] at hexp
          simp only [Prod.mk.injEq] at hexp
          obtain ⟨hd1, ha1, -⟩ := hexp
          subst hd1
          subst ha1
          intro b
          unfold clearPagesInternal
          rw [if_neg hc]
          dsimp only []
          simp only [one_shiftLeft]
          rw [if_neg hAD, if_neg hPF]
          dsimp only []
          rw [if_neg hSF]
          exact ⟨_, rfl⟩

/-- C9: once `expand_pages` has returned `Ok`, the `clear_pages_internal` walk
on the same arguments finds every needed subdirectory already present: it
returns `Ok` with the allocator unchanged whatever its state (so it performs no
allocation and its `.unwrap()` calls never panic), and `PageTable::clear`
returns `Ok` without panicking. -/
theorem c9_clear_safe_after_expand (d : PageDir) (vpn count : Nat) (a : Alloc)
    (d₁ : PageDir) (a₁ : Alloc)
    (hspan : vpn % 2 ^ ((PTABLE_MAX_LEVEL + 1) * LEVEL_WIDTH) + count ≤
      2 ^ ((PTABLE_MAX_LEVEL + 1) * LEVEL_WIDTH))
    (hexp : expandPages d vpn count PTABLE_MAX_LEVEL a = (d₁, a₁, true)) :
    (∀ b : Alloc, ∃ d₂, clearPagesInternal d₁ vpn count PTABLE_MAX_LEVEL b = some (d₂, b)) ∧
      ∃ d₂, tableClear d vpn count a = some (d₂, a₁, true) := by
  have h1 := expand_then_clear PTABLE_MAX_LEVEL d vpn count a d₁ a₁ hspan hexp
  refine ⟨h1, ?_⟩
  obtain ⟨d₂, h2⟩ := h1 a₁
  refine ⟨d₂, ?_⟩
  unfold tableClear
  rw [hexp]
  dsimp only []
  rw [h2]

/-- Witness for C9: `clear(5, 1)` on a fresh table with frames available. -/
def c9demo : PageDir × Alloc × Bool := expandPages freshRoot 5 1 PTABLE_MAX_LEVEL demoAlloc

theorem c9_clear_safe_after_expand_witness :
    (∀ b : Alloc, ∃ d₂,
      clearPagesInternal c9demo.1 5 1 PTABLE_MAX_LEVEL b = some (d₂, b)) ∧
      ∃ d₂, tableClear freshRoot 5 1 demoAlloc = some (d₂, c9demo.2.1, true) :=
  c9_clear_safe_after_expand freshRoot 5 1 demoAlloc c9demo.1 c9demo.2.1 (by decide)
    (by rw [show (true : Bool) = c9demo.2.2 from by decide]; rfl)

-- endregion

end Karox
